import Mathlib

/-!
Verification of the excel_to_graph repository's specified contracts.

Strings handled by `sanitize_filename` are modelled as lists of Unicode
code points (`List Nat`).  Python's `str.lower` and the regex classes `\w`
and `\s` consult the Unicode character data, an external artifact; they
enter the model as the fields of a `PyTextSemantics`, whose laws state
exactly the facts of that data which the source relies on (every law is a
true statement about Python's text machinery over the full Unicode range).
-/

namespace ExcelToGraph

/-- Python's text primitives over full Unicode, as used by
`sanitize_filename`: `lowerStr` is `str.lower` on a whole string (it cannot
be a code-point map: the capital-sigma rule is context sensitive, and a
character may lower to several), `isWord` is membership in the regex class
`\w`, `isSpace` membership in `\s`, and `settled` holds of the characters
that any lowering leaves in place (lowercase or uncased, and not capital
sigma).  The laws are the facts of the Unicode character data the function
depends on: `_` (code 95) is a word character, is not whitespace, and is
settled; every character `str.lower` emits is settled; and lowering a string
of settled characters returns it unchanged. -/
structure PyTextSemantics where
  lowerStr : List Nat → List Nat
  isWord : Nat → Bool
  isSpace : Nat → Bool
  settled : Nat → Bool
  underscore_word : isWord 95 = true
  underscore_not_space : isSpace 95 = false
  underscore_settled : settled 95 = true
  lower_output_settled : ∀ s c, c ∈ lowerStr s → settled c = true
  lower_fixes_settled : ∀ s, (∀ c ∈ s, settled c = true) → lowerStr s = s

/-- Membership in the regex class `[\s-]` used by `sanitize_filename`. -/
def isSpaceHyphen (sem : PyTextSemantics) (c : Nat) : Bool :=
  sem.isSpace c || c == 45

/-- A code point survives `re.sub(r"[^\w\s-]", "", name)` iff it is in
`[\w\s-]`. -/
def keepCode (sem : PyTextSemantics) (c : Nat) : Bool :=
  sem.isWord c || sem.isSpace c || c == 45

/-- `re.sub(r"[\s-]+", "_", name)`: each maximal run of code points
satisfying `p` (the class `[\s-]`) is replaced by a single underscore
(code 95). -/
def collapseRuns (p : Nat → Bool) : List Nat → List Nat
  | [] => []
  | [c] => if p c then [95] else [c]
  | c :: d :: rest =>
    if p c then
      if p d then collapseRuns p (d :: rest)
      else 95 :: collapseRuns p (d :: rest)
    else c :: collapseRuns p (d :: rest)

/-- Remove every trailing occurrence of `t` from a list. -/
def dropTrail {α : Type} [DecidableEq α] (t : α) : List α → List α
  | [] => []
  | c :: rest =>
    let r := dropTrail t rest
    if c = t ∧ r = [] then [] else c :: r

/-- Python's `str.strip(t)`: remove leading and trailing occurrences of `t`. -/
def stripEnds {α : Type} [DecidableEq α] (t : α) (l : List α) : List α :=
  dropTrail t (l.dropWhile (· = t))

/-- `sanitize_filename` from `utils.py`: lowercase, delete characters outside
`[\w\s-]`, collapse whitespace/hyphen runs into `_`, strip edge underscores. -/
def sanitize_filename (sem : PyTextSemantics) (s : List Nat) : List Nat :=
  stripEnds 95 (collapseRuns (isSpaceHyphen sem) ((sem.lowerStr s).filter (keepCode sem)))

/-- A code point as it can appear in a sanitized token: a `\w` character that
is settled under lowering and is not whitespace or a hyphen. -/
def sanitizedCode (sem : PyTextSemantics) (c : Nat) : Prop :=
  sem.isWord c = true ∧ sem.settled c = true ∧ isSpaceHyphen sem c = false

lemma mem_collapseRuns {p : Nat → Bool} {c : Nat} :
    ∀ {l : List Nat}, c ∈ collapseRuns p l →
      c = 95 ∨ (c ∈ l ∧ p c = false) := by
  intro l
  induction l with
  | nil => intro h; simp [collapseRuns] at h
  | cons a tl ih =>
    cases tl with
    | nil =>
      intro h
      by_cases ha : p a = true
      · simp [collapseRuns, ha] at h; left; exact h
      · simp [collapseRuns, ha] at h
        right
        refine ⟨by simp [h], ?_⟩
        subst h; simpa using ha
    | cons d rest =>
      intro h
      by_cases ha : p a = true
      · by_cases hd : p d = true
        · simp only [collapseRuns, if_pos ha, if_pos hd] at h
          rcases ih h with h95 | ⟨hm, hs⟩
          · exact Or.inl h95
          · exact Or.inr ⟨List.mem_cons_of_mem _ hm, hs⟩
        · simp only [collapseRuns, if_pos ha, if_neg hd, List.mem_cons] at h
          rcases h with h95 | h
          · exact Or.inl h95
          · rcases ih h with h95 | ⟨hm, hs⟩
            · exact Or.inl h95
            · exact Or.inr ⟨List.mem_cons_of_mem _ hm, hs⟩
      · simp only [collapseRuns, if_neg ha, List.mem_cons] at h
        rcases h with hc | h
        · subst hc
          right
          exact ⟨List.mem_cons_self _ _, by simpa using ha⟩
        · rcases ih h with h95 | ⟨hm, hs⟩
          · exact Or.inl h95
          · exact Or.inr ⟨List.mem_cons_of_mem _ hm, hs⟩

lemma collapseRuns_eq_self {p : Nat → Bool} :
    ∀ {l : List Nat}, (∀ c ∈ l, p c = false) → collapseRuns p l = l := by
  intro l
  induction l with
  | nil => intro _; rfl
  | cons a tl ih =>
    cases tl with
    | nil =>
      intro h
      have ha := h a (List.mem_cons_self _ _)
      simp [collapseRuns, ha]
    | cons d rest =>
      intro h
      have ha := h a (List.mem_cons_self _ _)
      have hrest : ∀ c ∈ d :: rest, p c = false := fun c hc =>
        h c (List.mem_cons_of_mem _ hc)
      simp only [collapseRuns, ha, Bool.false_eq_true, if_false]
      rw [ih hrest]

lemma mem_dropTrail {α : Type} [DecidableEq α] {t c : α} :
    ∀ {l : List α}, c ∈ dropTrail t l → c ∈ l := by
  intro l
  induction l with
  | nil => intro h; simp [dropTrail] at h
  | cons a tl ih =>
    intro h
    simp only [dropTrail] at h
    split at h
    · simp at h
    · rcases List.mem_cons.mp h with hc | hc
      · simp [hc]
      · exact List.mem_cons_of_mem _ (ih hc)

lemma getLast?_dropTrail {α : Type} [DecidableEq α] (t : α) :
    ∀ l : List α, (dropTrail t l).getLast? ≠ some t := by
  intro l
  induction l with
  | nil => simp [dropTrail]
  | cons a tl ih =>
    simp only [dropTrail]
    split
    · simp
    · rename_i hcond
      rcases hr : dropTrail t tl with _ | ⟨b, r'⟩
      · have ha : ¬ a = t := fun hat => hcond ⟨hat, hr⟩
        simp [List.getLast?, ha]
      · rw [hr] at ih
        have : (a :: b :: r').getLast? = (b :: r').getLast? := by
          simp [List.getLast?_cons_cons]
        rw [this]
        exact ih

lemma dropTrail_eq_self {α : Type} [DecidableEq α] {t : α} :
    ∀ {l : List α}, l.getLast? ≠ some t → dropTrail t l = l := by
  intro l
  induction l with
  | nil => intro _; rfl
  | cons a tl ih =>
    intro h
    cases tl with
    | nil =>
      have ha : ¬ a = t := by simpa [List.getLast?] using h
      simp [dropTrail, ha]
    | cons b rest =>
      have htl : (b :: rest).getLast? ≠ some t := by
        rwa [List.getLast?_cons_cons] at h
      have hrec := ih htl
      have heq : dropTrail t (a :: b :: rest) =
          if a = t ∧ dropTrail t (b :: rest) = [] then []
          else a :: dropTrail t (b :: rest) := rfl
      rw [heq, hrec]
      have : ¬ (a = t ∧ (b :: rest : List α) = []) := by
        rintro ⟨_, habs⟩; exact List.cons_ne_nil _ _ habs
      rw [if_neg this]

lemma head?_dropTrail {α : Type} [DecidableEq α] (t : α) (l : List α) :
    dropTrail t l = [] ∨ (dropTrail t l).head? = l.head? := by
  cases l with
  | nil => exact Or.inl rfl
  | cons a tl =>
    simp only [dropTrail]
    split
    · exact Or.inl rfl
    · exact Or.inr (by simp)

lemma head?_dropWhile_ne {α : Type} (p : α → Bool) :
    ∀ (l : List α) (c : α), (l.dropWhile p).head? = some c → p c = false := by
  intro l
  induction l with
  | nil => intro c h; simp at h
  | cons a tl ih =>
    intro c h
    by_cases ha : p a
    · rw [List.dropWhile_cons_of_pos ha] at h
      exact ih c h
    · rw [List.dropWhile_cons_of_neg ha] at h
      simp at h
      subst h
      simpa using ha

lemma dropWhile_eq_self_of_head {α : Type} (p : α → Bool) (l : List α)
    (h : ∀ c, l.head? = some c → p c = false) : l.dropWhile p = l := by
  cases l with
  | nil => rfl
  | cons a tl =>
    have ha : p a = false := h a (by simp)
    rw [List.dropWhile_cons_of_neg (by simp [ha])]

lemma mem_stripEnds {α : Type} [DecidableEq α] {t c : α} {l : List α}
    (h : c ∈ stripEnds t l) : c ∈ l := by
  have h1 : c ∈ l.dropWhile (· = t) := mem_dropTrail h
  exact (List.dropWhile_sublist _).subset h1

lemma head?_stripEnds_ne {α : Type} [DecidableEq α] (t : α) (l : List α) :
    (stripEnds t l).head? ≠ some t := by
  unfold stripEnds
  rcases head?_dropTrail t (l.dropWhile (· = t)) with hnil | hhd
  · rw [hnil]; simp
  · rw [hhd]
    intro habs
    have := head?_dropWhile_ne (· = t) l t habs
    simp at this

lemma getLast?_stripEnds_ne {α : Type} [DecidableEq α] (t : α) (l : List α) :
    (stripEnds t l).getLast? ≠ some t :=
  getLast?_dropTrail t _

lemma stripEnds_eq_self {α : Type} [DecidableEq α] {t : α} {l : List α}
    (h1 : l.head? ≠ some t) (h2 : l.getLast? ≠ some t) : stripEnds t l = l := by
  unfold stripEnds
  have hdw : l.dropWhile (· = t) = l := by
    apply dropWhile_eq_self_of_head
    intro c hc
    simp only [decide_eq_false_iff_not]
    intro hct
    subst hct
    exact h1 hc
  rw [hdw]
  exact dropTrail_eq_self h2

lemma map_eq_self_of_fix {α : Type} (f : α → α) :
    ∀ {l : List α}, (∀ c ∈ l, f c = c) → l.map f = l := by
  intro l
  induction l with
  | nil => intro _; rfl
  | cons a tl ih =>
    intro h
    simp only [List.map_cons]
    rw [h a (List.mem_cons_self _ _), ih (fun c hc => h c (List.mem_cons_of_mem _ hc))]

lemma sanitize_filename_chars {sem : PyTextSemantics} {c : Nat} {s : List Nat}
    (h : c ∈ sanitize_filename sem s) : sanitizedCode sem c := by
  unfold sanitize_filename at h
  have h1 := mem_stripEnds h
  rcases mem_collapseRuns h1 with h95 | ⟨hm, hsh⟩
  · subst h95
    refine ⟨sem.underscore_word, sem.underscore_settled, ?_⟩
    simp [isSpaceHyphen, sem.underscore_not_space]
  · have hkeep : keepCode sem c = true := List.of_mem_filter hm
    have hlow : c ∈ sem.lowerStr s := List.mem_of_mem_filter hm
    have hset : sem.settled c = true := sem.lower_output_settled s c hlow
    have hword : sem.isWord c = true := by
      unfold keepCode at hkeep
      unfold isSpaceHyphen at hsh
      rcases Bool.or_eq_true_iff.mp hkeep with h' | hc45
      · rcases Bool.or_eq_true_iff.mp h' with hw | hs
        · exact hw
        · rw [hs] at hsh; simp at hsh
      · rw [hc45] at hsh; simp at hsh
    exact ⟨hword, hset, hsh⟩

/-- Claim C1: `sanitize_filename` is idempotent — applying it to its own
output returns that output unchanged, for every input string and for every
text semantics satisfying the Unicode-data laws (in particular Python's
actual `str.lower`, `\w` and `\s`). -/
theorem sanitize_filename_idempotent (sem : PyTextSemantics) (s : List Nat) :
    sanitize_filename sem (sanitize_filename sem s) = sanitize_filename sem s := by
  have hchars : ∀ c ∈ sanitize_filename sem s, sanitizedCode sem c :=
    fun c hc => sanitize_filename_chars hc
  show stripEnds 95 (collapseRuns (isSpaceHyphen sem)
      ((sem.lowerStr (sanitize_filename sem s)).filter (keepCode sem)))
    = sanitize_filename sem s
  have hlow : sem.lowerStr (sanitize_filename sem s) = sanitize_filename sem s :=
    sem.lower_fixes_settled _ (fun c hc => (hchars c hc).2.1)
  rw [hlow]
  have hfilter : (sanitize_filename sem s).filter (keepCode sem)
      = sanitize_filename sem s := by
    rw [List.filter_eq_self]
    intro c hc
    have hw := (hchars c hc).1
    unfold keepCode
    rw [hw]
    rfl
  rw [hfilter]
  have hcoll : collapseRuns (isSpaceHyphen sem) (sanitize_filename sem s)
      = sanitize_filename sem s :=
    collapseRuns_eq_self (fun c hc => (hchars c hc).2.2)
  rw [hcoll]
  exact stripEnds_eq_self (head?_stripEnds_ne 95 _) (getLast?_stripEnds_ne 95 _)

/-- The exact code-point set of Python's regex class `\s` (the Unicode
whitespace characters): this finite list is the whole class. -/
def pySpaceCodes : List Nat :=
  [9, 10, 11, 12, 13, 28, 29, 30, 31, 32, 133, 160, 5760,
   8192, 8193, 8194, 8195, 8196, 8197, 8198, 8199, 8200, 8201, 8202,
   8232, 8233, 8239, 8287, 12288]

/-- A code-point lowering for the witness semantics: the ASCII shift plus
the non-ASCII pair É (201) → é (233). -/
def charLowerWitness (c : Nat) : Nat :=
  if 65 ≤ c ∧ c ≤ 90 then c + 32 else if c = 201 then 233 else c

/-- A concrete text semantics witnessing that the `PyTextSemantics` laws are
satisfiable: ASCII casing extended with É/é, the exact `\s` code-point set,
and word characters including the non-ASCII letters É and é. -/
def textSemWitness : PyTextSemantics where
  lowerStr := fun s => s.map charLowerWitness
  isWord := fun c =>
    (48 ≤ c && c ≤ 57) || (65 ≤ c && c ≤ 90) || (97 ≤ c && c ≤ 122)
      || c == 95 || c == 201 || c == 233
  isSpace := fun c => pySpaceCodes.contains c
  settled := fun c => decide (¬(65 ≤ c ∧ c ≤ 90) ∧ c ≠ 201)
  underscore_word := by decide
  underscore_not_space := by decide
  underscore_settled := by decide
  lower_output_settled := by
    intro s c hc
    rcases List.mem_map.mp hc with ⟨b, _, hb⟩
    subst hb
    rw [decide_eq_true_eq]
    unfold charLowerWitness
    split
    · rename_i h1
      omega
    · split
      · omega
      · rename_i h1 h2
        exact ⟨h1, h2⟩
  lower_fixes_settled := by
    intro s hs
    apply map_eq_self_of_fix
    intro c hc
    have h := hs c hc
    rw [decide_eq_true_eq] at h
    unfold charLowerWitness
    rw [if_neg h.1, if_neg h.2]

/-- Witness for claim C1: under the concrete semantics, `a<FS>b` (code 28 is
U+001C, in `\s`) sanitizes to `a_b`, and the theorem applies to that
input. -/
theorem sanitize_filename_idempotent_witness :
    sanitize_filename textSemWitness [97, 28, 98] = [97, 95, 98]
      ∧ sanitize_filename textSemWitness
            (sanitize_filename textSemWitness [97, 28, 98])
          = sanitize_filename textSemWitness [97, 28, 98] :=
  ⟨by decide, sanitize_filename_idempotent textSemWitness [97, 28, 98]⟩

/-! ### Project-name validation (`utils.validate_project_name`) -/

/-- Python's `str.lower` applied character-wise (the names compared against the
reserved list are ASCII, where `Char.toLower` matches Python's behaviour). -/
def pyLowerStr (s : String) : String :=
  ⟨s.data.map Char.toLower⟩

/-- A character of the regex class `[a-zA-Z0-9_-]`. -/
def isAllowedChar (c : Char) : Bool :=
  c.isAlpha || c.isDigit || c == '-' || c == '_'

/-- One or more characters, all from `[a-zA-Z0-9_-]`. -/
def matchClassPlus (l : List Char) : Bool :=
  !l.isEmpty && l.all isAllowedChar

/-- Python's `re.match(r"^[a-zA-Z0-9_-]+$", name)`: `re.match` anchors at the
start, and `$` matches at the end of the string or just before a newline at
the end of the string, so a single trailing newline is tolerated. -/
def reFullMatch (l : List Char) : Bool :=
  matchClassPlus l || (l.getLast? == some '\n' && matchClassPlus l.dropLast)

/-- `name[0] in ["-", "_"] or name[-1] in ["-", "_"]`. -/
def hasEdgeChar (l : List Char) : Bool :=
  (l.head? == some '-' || l.head? == some '_')
    || (l.getLast? == some '-' || l.getLast? == some '_')

/-- The reserved-name list of `validate_project_name`. -/
def reservedNames : List String :=
  ["con", "prn", "aux", "nul", "com1", "com2", "lpt1", "lpt2"]

/-- `name.lower() in reserved`. -/
def isReservedName (name : String) : Bool :=
  reservedNames.contains (pyLowerStr name)

/-- `validate_project_name` from `utils.py`: the five checks in source order,
each returning `(False, message)` on the first violation, `(True, "")` on
success. -/
def validate_project_name (name : String) : Bool × String :=
  if name.isEmpty then (false, "Project name cannot be empty")
  else if name.length > 100 then
    (false, "Project name is too long (max 100 characters)")
  else if !(reFullMatch name.data) then
    (false, "Project name can only contain letters, numbers, hyphens (-), and underscores (_)")
  else if hasEdgeChar name.data then
    (false, "Project name cannot start or end with hyphens or underscores")
  else if isReservedName name then
    (false, "\x27" ++ name ++ "\x27 is a reserved name and cannot be used")
  else (true, "")

/-- The ProjectName grammar, written from the spec's words: non-empty, at most
100 characters, only `[A-Za-z0-9_-]`, no leading or trailing `-`/`_`, and not
a reserved word case-insensitively. -/
def projectNameGrammar (name : String) : Bool :=
  !name.isEmpty && name.length ≤ 100 && name.data.all isAllowedChar
    && !(hasEdgeChar name.data) && !(isReservedName name)

/-- Names accepted by `validate_project_name` only because the `$` anchor of
the character-class regex also matches just before one trailing newline. -/
def trailingNewlineAccepted (name : String) : Bool :=
  (name.data.getLast? == some '\n') && matchClassPlus name.data.dropLast
    && name.length ≤ 100 && !(hasEdgeChar name.data) && !(isReservedName name)

/-- Claim C7, counterexample: the name consisting of `abc` followed by a
newline violates the ProjectName grammar (a newline is outside
`[A-Za-z0-9_-]`), yet `validate_project_name` accepts it with an empty
reason, because Python's `$` anchor matches before a trailing newline. -/
theorem validate_project_name_newline_counterexample :
    validate_project_name "abc\n" = (true, "")
      ∧ projectNameGrammar "abc\n" = false := by
  constructor <;> rfl

/-- Claim C7 (amended): `validate_project_name` succeeds with an empty reason
exactly on names matching the ProjectName grammar together with names made of
allowed characters followed by one trailing newline (tolerated by the regex
`$` anchor) that also pass the length, edge-character and reserved-word
checks; every other name fails with a non-empty reason. -/
lemma string_append_data (a b : String) : (a ++ b).data = a.data ++ b.data := by
  cases a; cases b; rfl

lemma string_data_eq_nil_iff (s : String) : s.data = [] ↔ s = "" := by
  constructor
  · intro h
    cases s with
    | mk l =>
      have h' : l = [] := h
      rw [h']
  · intro h
    rw [h]

lemma string_isEmpty_data (s : String) : s.isEmpty = true ↔ s.data = [] := by
  rw [String.isEmpty_iff, string_data_eq_nil_iff]

theorem validate_project_name_characterization (name : String) :
    (validate_project_name name = (true, "") ↔
      (projectNameGrammar name = true ∨ trailingNewlineAccepted name = true))
    ∧ (validate_project_name name = (true, "")
        ∨ ((validate_project_name name).1 = false
            ∧ (validate_project_name name).2 ≠ "")) := by
  unfold validate_project_name
  split_ifs with h1 h2 h3 h4 h5
  · -- empty name
    have hnil : name.data = [] := (string_isEmpty_data name).mp h1
    have hname : name = "" := (string_data_eq_nil_iff name).mp hnil
    subst hname
    refine ⟨?_, Or.inr ⟨rfl, by decide⟩⟩
    constructor
    · intro habs; simp at habs
    · intro habs
      rcases habs with hg | ht
      · exact absurd hg (by decide)
      · exact absurd ht (by decide)
  · -- too long
    refine ⟨?_, Or.inr ⟨rfl, by decide⟩⟩
    constructor
    · intro habs; simp at habs
    · intro habs
      have hlen : ¬ name.length ≤ 100 := by omega
      rcases habs with hg | ht
      · have := (Bool.and_eq_true_iff.mp ((Bool.and_eq_true_iff.mp
          ((Bool.and_eq_true_iff.mp ((Bool.and_eq_true_iff.mp hg).1)).1)).1)).2
        simp at this
        omega
      · have := (Bool.and_eq_true_iff.mp ((Bool.and_eq_true_iff.mp
          ((Bool.and_eq_true_iff.mp ht).1)).1)).2
        simp at this
        omega
  · -- regex failed: neither all-allowed nor trailing-newline form
    have hre : reFullMatch name.data = false := by simpa using h3
    have hcls : matchClassPlus name.data = false := by
      rcases h' : matchClassPlus name.data with _ | _
      · rfl
      · rw [reFullMatch, h'] at hre; simp at hre
    have htr : ((name.data.getLast? == some '\n')
        && matchClassPlus name.data.dropLast) = false := by
      rcases h' : ((name.data.getLast? == some '\n')
          && matchClassPlus name.data.dropLast) with _ | _
      · rfl
      · rw [reFullMatch, h'] at hre; simp at hre
    have hne : name.data.isEmpty = false := by
      rcases h' : name.data.isEmpty with _ | _
      · rfl
      · exact absurd ((string_isEmpty_data name).mpr (by simpa using h')) h1
    have hall : name.data.all isAllowedChar = false := by
      rcases h' : name.data.all isAllowedChar with _ | _
      · rfl
      · rw [matchClassPlus, hne, h'] at hcls; simp at hcls
    refine ⟨?_, Or.inr ⟨rfl, by decide⟩⟩
    constructor
    · intro habs; simp at habs
    · intro habs
      rcases habs with hg | ht
      · rw [projectNameGrammar, hall] at hg; simp at hg
      · rw [trailingNewlineAccepted] at ht
        have ht' := (Bool.and_eq_true_iff.mp ((Bool.and_eq_true_iff.mp
          ((Bool.and_eq_true_iff.mp ht).1)).1)).1
        rw [ht'] at htr
        simp at htr
  · -- edge hyphen/underscore
    refine ⟨?_, Or.inr ⟨rfl, by decide⟩⟩
    constructor
    · intro habs; simp at habs
    · intro habs
      rcases habs with hg | ht
      · have := (Bool.and_eq_true_iff.mp ((Bool.and_eq_true_iff.mp hg).1)).2
        rw [h4] at this; simp at this
      · have := (Bool.and_eq_true_iff.mp ((Bool.and_eq_true_iff.mp ht).1)).2
        rw [h4] at this; simp at this
  · -- reserved word
    have hmsg : ("\x27" ++ name ++ "\x27 is a reserved name and cannot be used") ≠ "" := by
      intro habs
      have hd := congrArg String.data habs
      rw [string_append_data, string_append_data] at hd
      simp at hd
    refine ⟨?_, Or.inr ⟨rfl, hmsg⟩⟩
    constructor
    · intro habs; simp at habs
    · intro habs
      rcases habs with hg | ht
      · have := (Bool.and_eq_true_iff.mp hg).2
        rw [h5] at this; simp at this
      · have := (Bool.and_eq_true_iff.mp ht).2
        rw [h5] at this; simp at this
  · -- success: all checks passed
    have hre : reFullMatch name.data = true := by
      rcases h' : reFullMatch name.data with _ | _
      · exact absurd (by simp [h']) h3
      · rfl
    have hlen : name.length ≤ 100 := by omega
    have hedge : hasEdgeChar name.data = false := by
      rcases h' : hasEdgeChar name.data with _ | _
      · rfl
      · exact absurd h' h4
    have hres : isReservedName name = false := by
      rcases h' : isReservedName name with _ | _
      · rfl
      · exact absurd h' h5
    have hne : name.isEmpty = false := by
      rcases h' : name.isEmpty with _ | _
      · rfl
      · exact absurd h' h1
    refine ⟨?_, Or.inl rfl⟩
    constructor
    · intro _
      rcases Bool.or_eq_true_iff.mp hre with hcls | htrail
      · left
        have hall : name.data.all isAllowedChar = true :=
          (Bool.and_eq_true_iff.mp hcls).2
        rw [projectNameGrammar, hne, hall, hedge, hres]
        simp [hlen]
      · right
        rcases Bool.and_eq_true_iff.mp htrail with ⟨hlast, hdrop⟩
        rw [trailingNewlineAccepted, hlast, hdrop, hedge, hres]
        simp [hlen]
    · intro _
      rfl

/-!  ### Output-directory resolution (`utils.get_output_dir_for_project`) -/

/-- `get_output_dir_for_project` from `utils.py`: Python's `if project_name:`
is false both for `None` and for the empty string. -/
def get_output_dir_for_project (project_name : Option String)
    (base_dir : String) : String :=
  match project_name with
  | some n => if n.isEmpty then base_dir else base_dir ++ "/" ++ n
  | none => base_dir

/-- Claim C10: passing the empty string as the project name returns the base
directory unchanged, exactly as an absent name does, for every base
directory. -/
theorem get_output_dir_empty_name (base_dir : String) :
    get_output_dir_for_project (some "") base_dir = base_dir
      ∧ get_output_dir_for_project (some "") base_dir
          = get_output_dir_for_project none base_dir :=
  ⟨rfl, rfl⟩

/-! ### Project scaffolding (`utils.create_project_structure`)

The filesystem is modelled as the set of existing directory paths plus the
set of written files; a path is its list of segments.  `Path.mkdir` with
`parents=True, exist_ok=True` inserts the path together with all of its
ancestors. -/

/-- A filesystem path, as its list of segments. -/
abbrev DirPath := List String

/-- The filesystem state: existing directories, and written files with their
content. -/
structure FS where
  dirs : Finset DirPath
  files : Finset (DirPath × String)

/-- `Path.exists()`: the path names an existing directory or file. -/
def pathExists (fs : FS) (p : DirPath) : Bool :=
  p ∈ fs.dirs || p ∈ fs.files.image Prod.fst

/-- The non-empty prefixes of a path: its ancestors and the path itself. -/
def prefixes (p : DirPath) : List DirPath :=
  (List.range p.length).map (fun k => p.take (k + 1))

/-- `path.mkdir(parents=True, exist_ok=True)`. -/
def mkdirParents (fs : FS) (p : DirPath) : FS :=
  { fs with dirs := fs.dirs ∪ (prefixes p).toFinset }

/-- `path.write_text(content)`. -/
def writeText (fs : FS) (p : DirPath) (content : String) : FS :=
  { fs with files := insert (p, content) fs.files }

/-- The README body written by `create_project_structure` (the f-string with
the project name interpolated three times). -/
def readmeContent (project_name : String) : String :=
  "# " ++ project_name
    ++ "\n\nThis directory contains Excel files for the **" ++ project_name
    ++ "** project.\n\n## Usage\n\n1. Place your Excel files (.xlsx, .xls) in this directory\n2. Convert them to CSV for easier inspection:\n   ```bash\n   excel-to-graph convert resources/"
    ++ project_name
    ++ "\n   ```\n3. Generate visualizations using Claude Code or the CLI\n\n## Files\n\nAdd your Excel data files here. They will not be committed to git (protected by .gitignore).\n\nGenerated CSV files will also appear here for easier data inspection.\n"

/-- `create_project_structure` from `utils.py`: validate the name, fail if any
of the three project paths exists, otherwise create the three directories
(with parents) and write the README; the pair is the call's outcome and the
resulting filesystem (unchanged on failure, since the existence check runs
before any creation). -/
def create_project_structure (project_name : String) (base : DirPath)
    (fs : FS) : Except String (List DirPath) × FS :=
  if (validate_project_name project_name).1 = false then
    (Except.error (validate_project_name project_name).2, fs)
  else
    let rPath := base ++ ["resources", project_name]
    let oPath := base ++ ["outputs", project_name]
    let sPath := base ++ ["scripts", project_name]
    if pathExists fs rPath || pathExists fs oPath || pathExists fs sPath then
      (Except.error ("Project \x27" ++ project_name ++ "\x27 already exists"), fs)
    else
      let fs1 := mkdirParents fs rPath
      let fs2 := mkdirParents fs1 oPath
      let fs3 := mkdirParents fs2 sPath
      let fs4 := writeText fs3 (rPath ++ ["README.md"]) (readmeContent project_name)
      (Except.ok [rPath, oPath, sPath], fs4)

lemma prefixes_concat (l : DirPath) (x : String) :
    prefixes (l ++ [x]) = prefixes l ++ [l ++ [x]] := by
  unfold prefixes
  rw [List.length_append, List.length_singleton, List.range_succ,
    List.map_append, List.map_singleton]
  congr 1
  · apply List.map_congr_left
    intro k hk
    have hk' : k + 1 ≤ l.length := List.mem_range.mp hk
    exact List.take_append_of_le_length hk'
  · rw [List.take_of_length_le (by simp)]

lemma mem_prefixes_pair (base : DirPath) (c x : String) (a : DirPath) :
    a ∈ prefixes (base ++ [c, x]) ↔
      a ∈ prefixes base ∨ a = base ++ [c] ∨ a = base ++ [c, x] := by
  have h2 : base ++ [c, x] = (base ++ [c]) ++ [x] := by simp
  rw [h2, prefixes_concat, prefixes_concat]
  simp [List.mem_append, or_assoc]

lemma union_prefixes_insert (s : Finset DirPath) (l : DirPath) (c x : String)
    (hpre : ∀ q ∈ prefixes l, q ∈ s) (hc : l ++ [c] ∈ s) :
    s ∪ (prefixes (l ++ [c, x])).toFinset = insert (l ++ [c, x]) s := by
  ext a
  simp only [Finset.mem_union, List.mem_toFinset, mem_prefixes_pair,
    Finset.mem_insert]
  constructor
  · rintro (hm | hp | he1 | he2)
    · exact Or.inr hm
    · exact Or.inr (hpre _ hp)
    · exact Or.inr (by rw [he1]; exact hc)
    · exact Or.inl he2
  · rintro (he | hm)
    · exact Or.inr (Or.inr (Or.inr he))
    · exact Or.inl hm

/-- Claim C2: starting from a filesystem where the three project paths are
absent (and the standard `resources`/`outputs`/`scripts` parents exist), the
first call succeeds, returning the three paths and creating exactly those
three directories plus the README file; a second identical call fails with
an already-exists error, raised before any creation, and leaves the
filesystem unchanged. -/
theorem create_project_structure_twice (name : String) (base : DirPath) (fs : FS)
    (hname : (validate_project_name name).1 = true)
    (hr : pathExists fs (base ++ ["resources", name]) = false)
    (ho : pathExists fs (base ++ ["outputs", name]) = false)
    (hs : pathExists fs (base ++ ["scripts", name]) = false)
    (hbase : ∀ q ∈ prefixes base, q ∈ fs.dirs)
    (hres : base ++ ["resources"] ∈ fs.dirs)
    (hout : base ++ ["outputs"] ∈ fs.dirs)
    (hscr : base ++ ["scripts"] ∈ fs.dirs)
    (hreadme : (base ++ ["resources", name, "README.md"], readmeContent name) ∉ fs.files) :
    (create_project_structure name base fs).1
        = Except.ok [base ++ ["resources", name], base ++ ["outputs", name],
            base ++ ["scripts", name]]
      ∧ (create_project_structure name base fs).2.dirs
          = insert (base ++ ["scripts", name]) (insert (base ++ ["outputs", name])
              (insert (base ++ ["resources", name]) fs.dirs))
      ∧ base ++ ["resources", name] ∉ fs.dirs
      ∧ base ++ ["outputs", name] ∉ fs.dirs
      ∧ base ++ ["scripts", name] ∉ fs.dirs
      ∧ (create_project_structure name base fs).2.files
          = insert (base ++ ["resources", name, "README.md"], readmeContent name) fs.files
      ∧ (base ++ ["resources", name, "README.md"], readmeContent name) ∉ fs.files
      ∧ create_project_structure name base ((create_project_structure name base fs).2)
          = (Except.error ("Project \x27" ++ name ++ "\x27 already exists"),
             (create_project_structure name base fs).2) := by
  have hv : ¬ ((validate_project_name name).1 = false) := by
    simp [hname]
  have hnotin : ∀ p : DirPath, pathExists fs p = false → p ∉ fs.dirs := by
    intro p hp hmem
    rw [pathExists, Bool.or_eq_false_iff] at hp
    rcases hp with ⟨hp1, _⟩
    simp [hmem] at hp1
  have hrd := hnotin _ hr
  have hod := hnotin _ ho
  have hsd := hnotin _ hs
  have hfirst : create_project_structure name base fs
      = (Except.ok [base ++ ["resources", name], base ++ ["outputs", name],
          base ++ ["scripts", name]],
         writeText
           (mkdirParents (mkdirParents (mkdirParents fs
               (base ++ ["resources", name])) (base ++ ["outputs", name]))
             (base ++ ["scripts", name]))
           (base ++ ["resources", name] ++ ["README.md"]) (readmeContent name)) := by
    unfold create_project_structure
    rw [if_neg hv]
    simp only [hr, ho, hs, Bool.or_self, Bool.or_false, Bool.false_eq_true,
      if_false, ite_false]
  have hd1 : (mkdirParents fs (base ++ ["resources", name])).dirs
      = insert (base ++ ["resources", name]) fs.dirs := by
    simpa [mkdirParents] using
      union_prefixes_insert fs.dirs base "resources" name hbase hres
  have hbase1 : ∀ q ∈ prefixes base,
      q ∈ (mkdirParents fs (base ++ ["resources", name])).dirs := by
    intro q hq
    rw [hd1]
    exact Finset.mem_insert_of_mem (hbase q hq)
  have hout1 : base ++ ["outputs"] ∈ (mkdirParents fs (base ++ ["resources", name])).dirs := by
    rw [hd1]; exact Finset.mem_insert_of_mem hout
  have hd2 : (mkdirParents (mkdirParents fs (base ++ ["resources", name]))
        (base ++ ["outputs", name])).dirs
      = insert (base ++ ["outputs", name])
          (insert (base ++ ["resources", name]) fs.dirs) := by
    have heq : (mkdirParents (mkdirParents fs (base ++ ["resources", name]))
        (base ++ ["outputs", name])).dirs
        = (mkdirParents fs (base ++ ["resources", name])).dirs
            ∪ (prefixes (base ++ ["outputs", name])).toFinset := rfl
    rw [heq, union_prefixes_insert _ base "outputs" name hbase1 hout1, hd1]
  have hbase2 : ∀ q ∈ prefixes base,
      q ∈ (mkdirParents (mkdirParents fs (base ++ ["resources", name]))
        (base ++ ["outputs", name])).dirs := by
    intro q hq
    rw [hd2]
    exact Finset.mem_insert_of_mem (Finset.mem_insert_of_mem (hbase q hq))
  have hscr2 : base ++ ["scripts"] ∈ (mkdirParents (mkdirParents fs
      (base ++ ["resources", name])) (base ++ ["outputs", name])).dirs := by
    rw [hd2]
    exact Finset.mem_insert_of_mem (Finset.mem_insert_of_mem hscr)
  have hd3 : (mkdirParents (mkdirParents (mkdirParents fs
        (base ++ ["resources", name])) (base ++ ["outputs", name]))
        (base ++ ["scripts", name])).dirs
      = insert (base ++ ["scripts", name]) (insert (base ++ ["outputs", name])
          (insert (base ++ ["resources", name]) fs.dirs)) := by
    have heq : (mkdirParents (mkdirParents (mkdirParents fs
        (base ++ ["resources", name])) (base ++ ["outputs", name]))
        (base ++ ["scripts", name])).dirs
        = (mkdirParents (mkdirParents fs (base ++ ["resources", name]))
            (base ++ ["outputs", name])).dirs
            ∪ (prefixes (base ++ ["scripts", name])).toFinset := rfl
    rw [heq, union_prefixes_insert _ base "scripts" name hbase2 hscr2, hd2]
  have hdirs : (create_project_structure name base fs).2.dirs
      = insert (base ++ ["scripts", name]) (insert (base ++ ["outputs", name])
          (insert (base ++ ["resources", name]) fs.dirs)) := by
    rw [hfirst]
    exact hd3
  refine ⟨by rw [hfirst], hdirs, hrd, hod, hsd, ?_, hreadme, ?_⟩
  · rw [hfirst]
    have hpath : base ++ ["resources", name] ++ ["README.md"]
        = base ++ ["resources", name, "README.md"] := by simp
    show insert (base ++ ["resources", name] ++ ["README.md"], readmeContent name) fs.files
        = insert (base ++ ["resources", name, "README.md"], readmeContent name) fs.files
    rw [hpath]
  · have hmem : base ++ ["resources", name] ∈ (create_project_structure name base fs).2.dirs := by
      rw [hdirs]
      exact Finset.mem_insert_of_mem (Finset.mem_insert_of_mem
        (Finset.mem_insert_self _ _))
    have hex : pathExists (create_project_structure name base fs).2
        (base ++ ["resources", name]) = true := by
      rw [pathExists, Bool.or_eq_true_iff]
      left
      simpa using hmem
    set fs' := (create_project_structure name base fs).2 with hfs'
    show create_project_structure name base fs' = _
    unfold create_project_structure
    rw [if_neg hv]
    simp only [hex, Bool.true_or, if_true, ite_true]

/-- A concrete initialized workspace: the base directory with the three
category directories and no files. -/
def fsInit : FS :=
  { dirs := {["base"], ["base", "resources"], ["base", "outputs"], ["base", "scripts"]},
    files := ∅ }

/-- Witness for claim C2 at the project name `proj` under `base`. -/
theorem create_project_structure_twice_witness :
    (validate_project_name "proj").1 = true
      ∧ pathExists fsInit (["base"] ++ ["resources", "proj"]) = false
      ∧ (create_project_structure "proj" ["base"] fsInit).1
          = Except.ok [["base"] ++ ["resources", "proj"], ["base"] ++ ["outputs", "proj"],
              ["base"] ++ ["scripts", "proj"]] :=
  ⟨by decide, by decide,
   (create_project_structure_twice "proj" ["base"] fsInit (by decide) (by decide)
      (by decide) (by decide) (by decide) (by decide) (by decide) (by decide)
      (by decide)).1⟩

/-! ### Tabular reader (`reader.ExcelReader`)

A sheet's table is modelled by its column names and rows; the spreadsheet
parser is an external collaborator, supplied as the functions `loadAll`
(what `pd.read_excel(..., sheet_name=None)` returns for the reader's file)
and `loadSheet` (one sheet). -/

/-- One sheet loaded into memory: ordered column names plus rows. -/
structure DataFrame where
  cols : List String
  rows : List (List String)
deriving DecidableEq

/-- The external spreadsheet parser for one reader instance. -/
structure ReaderModel where
  loadAll : List (String × DataFrame)
  loadSheet : String → DataFrame

/-- Python's `str.strip()`: drop leading and trailing whitespace. -/
def pyStripStr (s : String) : String :=
  ⟨((s.data.dropWhile Char.isWhitespace).reverse.dropWhile Char.isWhitespace).reverse⟩

/-- `df.columns.str.strip().str.lower()`. -/
def normalizeCols (df : DataFrame) : DataFrame :=
  { df with cols := df.cols.map (fun c => pyLowerStr (pyStripStr c)) }

/-- `df.rename(columns={cols[0]: "speak_time", cols[1]: "speak_person"})`,
applied only when at least two columns exist; with duplicate first columns
the later dictionary entry wins, as in Python. -/
def renameFirstTwo (df : DataFrame) : DataFrame :=
  match df.cols with
  | c0 :: c1 :: rest =>
    { df with
      cols := (c0 :: c1 :: rest).map (fun c =>
        if c = c1 then "speak_person" else if c = c0 then "speak_time" else c) }
  | _ => df

/-- `dict.get` over the insertion-ordered workbook mapping. -/
def dictGet (wb : List (String × DataFrame)) (k : String) : Option DataFrame :=
  (wb.find? (fun p => p.1 == k)).map Prod.snd

/-- The message of the `ValueError` that pandas raises when a `DataFrame` is
used as a boolean. -/
def pandasValueError : String :=
  "ValueError: The truth value of a DataFrame is ambiguous."

/-- `self.workbook_data.get(sheet_name) or self.load_sheet(sheet_name)`:
when the lookup returns a DataFrame, `or` evaluates its truth value and
pandas raises; only when it returns `None` is the sheet loaded afresh. -/
def getOrLoad (m : ReaderModel) (wb : List (String × DataFrame))
    (sn : String) : Except String DataFrame :=
  match dictGet wb sn with
  | some _ => Except.error pandasValueError
  | none => Except.ok (m.loadSheet sn)

/-- `ExcelReader.get_timeline_data` from `reader.py`, over the reader's
current `workbook_data` (`wb`): resolve the default sheet to the first
loaded sheet (loading all sheets first when none are cached), fetch the
sheet, normalize headers, and rename the first two columns when at least two
exist. -/
def get_timeline_data (m : ReaderModel) (wb : List (String × DataFrame))
    (sheet_name : Option String) : Except String DataFrame :=
  match sheet_name with
  | none =>
    let wb' := if wb.isEmpty then m.loadAll else wb
    match (wb'.map Prod.fst).head? with
    | none => Except.error "IndexError: list index out of range"
    | some sn => (getOrLoad m wb' sn).map (fun df => renameFirstTwo (normalizeCols df))
  | some sn => (getOrLoad m wb sn).map (fun df => renameFirstTwo (normalizeCols df))

/-- Claim C3 (code bug): for every loaded non-empty workbook, calling
`get_timeline_data` with no sheet name raises pandas' ValueError instead of
returning the header-normalized, role-renamed table: the resolved default
sheet is always cached, so `workbook_data.get(sheet_name) or
self.load_sheet(sheet_name)` evaluates the truth value of a DataFrame. -/
theorem get_timeline_data_default_raises (m : ReaderModel)
    (entry : String × DataFrame) (rest : List (String × DataFrame)) :
    get_timeline_data m (entry :: rest) none = Except.error pandasValueError := by
  cases entry with
  | mk sn df =>
    unfold get_timeline_data
    simp [dictGet, getOrLoad, Except.map]

/-! ### Format converter (`converter.py`)

Directory contents are modelled as the list of entry names directly under
the directory; `Path.glob` with a `*.<ext>` pattern keeps the entries whose
name ends with the pattern's tail, case-sensitively, as `fnmatch` does on a
case-sensitive filesystem. -/

/-- Python's `str.upper` on a single ASCII character. -/
def pyUpperChar (c : Char) : Char :=
  if 'a' ≤ c ∧ c ≤ 'z' then Char.ofNat (c.toNat - 32) else c

/-- Python's `str.upper` character-wise (the glob patterns are ASCII). -/
def pyUpperStr (s : String) : String :=
  ⟨s.data.map pyUpperChar⟩

/-- The glob patterns `excel_extensions` in `convert_directory`. -/
def excel_glob_patterns : List String :=
  ["*.xlsx", "*.xls", "*.xlsm", "*.xlsb"]

/-- Matching a `*<tail>` glob pattern: the name ends with the pattern minus
its leading star, compared case-sensitively. -/
def globTailMatches (pattern name : String) : Bool :=
  List.isSuffixOf (pattern.data.drop 1) name.data

/-- Insert into a `≤`-sorted list of strings. -/
def insertSorted (x : String) : List String → List String
  | [] => [x]
  | y :: ys => if x ≤ y then x :: y :: ys else y :: insertSorted x ys

/-- Python's `sorted` on paths sharing one directory: lexicographic order of
the names. -/
def sortStrings (l : List String) : List String :=
  l.foldr insertSorted []

/-- The discovery loop of `convert_directory`: for each pattern, glob it and
its uppercased form, then sort the collected paths. -/
def discoverExcelFiles (entries : List String) : List String :=
  sortStrings ((excel_glob_patterns.map (fun pat =>
    entries.filter (fun n => globTailMatches pat n)
      ++ entries.filter (fun n => globTailMatches (pyUpperStr pat) n))).flatten)

/-- An entry whose name matches some recognized glob pattern in its original
or uppercased form. -/
def recognizedExactCase (name : String) : Bool :=
  excel_glob_patterns.any (fun pat =>
    globTailMatches pat name || globTailMatches (pyUpperStr pat) name)

/-- The extension whitelist checked by `convert_excel_to_csv`. -/
def excelExtensions : List String :=
  [".xlsx", ".xls", ".xlsm", ".xlsb"]

/-- The final `/`-separated component of a path string. -/
def lastComponent (s : String) : String :=
  ⟨(s.data.reverse.takeWhile (fun c => ¬ c = '/')).reverse⟩

/-- The index of the last dot of a name, if any. -/
def lastDotIdx (l : List Char) : Option Nat :=
  match l.reverse.findIdx? (fun c => c = '.') with
  | some k => some (l.length - 1 - k)
  | none => none

/-- `Path.suffix`: the final `.<ext>` of the last component, empty when the
last dot is absent, leading or trailing. -/
def pySuffix (s : String) : String :=
  let name := (lastComponent s).data
  match lastDotIdx name with
  | some i => if 0 < i ∧ i < name.length - 1 then ⟨name.drop i⟩ else ""
  | none => ""

/-- `Path.stem`: the last component without its suffix. -/
def pyStem (s : String) : String :=
  let name := (lastComponent s).data
  match lastDotIdx name with
  | some i => if 0 < i ∧ i < name.length - 1 then ⟨name.take i⟩ else ⟨name⟩
  | none => ⟨name⟩

/-- `Path.parent` of a path string. -/
def parentDir (s : String) : String :=
  match s.data.reverse.dropWhile (fun c => ¬ c = '/') with
  | [] => "."
  | _ :: rest => ⟨rest.reverse⟩

/-- One character step of `sanitize_sheet_name`: keep alphanumerics and
`-`/`_`, turn a space into `_`, skip everything else. -/
def sheetKeepChar (c : Char) : Option Char :=
  if c.isAlphanum || c = '-' || c = '_' then some c
  else if c = ' ' then some '_' else none

/-- The `while "__" in result` loop: every maximal run of underscores is
reduced to a single one. -/
def collapseUnderscores : List Char → List Char
  | [] => []
  | [c] => [c]
  | c :: d :: rest =>
    if c = '_' ∧ d = '_' then collapseUnderscores (d :: rest)
    else c :: collapseUnderscores (d :: rest)

/-- `sanitize_sheet_name` from `converter.py`. -/
def sanitize_sheet_name (name : String) : String :=
  let r := stripEnds '_' (collapseUnderscores (name.data.filterMap sheetKeepChar))
  if r.isEmpty then "sheet" else ⟨r⟩

/-- The external collaborators of the converter: file existence, directory
test, and the spreadsheet parser. -/
structure ConvEnv where
  existsAt : String → Bool
  isDirAt : String → Bool
  readExcel : String → Except String (List (String × DataFrame))

/-- `convert_excel_to_csv` from `converter.py`, returning the created CSV
paths in sheet order (the writes themselves are external side effects). -/
def convert_excel_to_csv (env : ConvEnv) (excel_file : String)
    (output_dir : Option String) : Except String (List String) :=
  if env.existsAt excel_file = false then
    Except.error ("Excel file not found: " ++ excel_file)
  else if !(excelExtensions.contains (pyLowerStr (pySuffix excel_file))) then
    Except.error ("Not an Excel file: " ++ excel_file)
  else
    let outDir := match output_dir with
      | none => parentDir excel_file
      | some d => d
    match env.readExcel excel_file with
    | Except.error e => Except.error ("Failed to read Excel file: " ++ e)
    | Except.ok sheets =>
      Except.ok (sheets.map (fun p =>
        outDir ++ "/" ++ pyStem excel_file ++ "_" ++ sanitize_sheet_name p.1 ++ ".csv"))

/-- `convert_directory` from `converter.py`: check the directory, discover
the spreadsheet entries, and convert each in sorted order, mapping a failed
file to an empty output list instead of aborting. -/
def convert_directory (env : ConvEnv) (dirPath : String) (entries : List String)
    (output_dir : Option String) : Except String (List (String × List String)) :=
  if env.existsAt dirPath = false then
    Except.error ("Directory not found: " ++ dirPath)
  else if env.isDirAt dirPath = false then
    Except.error ("Not a directory: " ++ dirPath)
  else
    Except.ok ((discoverExcelFiles entries).map (fun n =>
      match convert_excel_to_csv env (dirPath ++ "/" ++ n) output_dir with
      | Except.ok csvs => (dirPath ++ "/" ++ n, csvs)
      | Except.error _ => (dirPath ++ "/" ++ n, [])))

lemma mem_insertSorted (x a : String) :
    ∀ l : List String, a ∈ insertSorted x l ↔ a = x ∨ a ∈ l := by
  intro l
  induction l with
  | nil => simp [insertSorted]
  | cons y ys ih =>
    simp only [insertSorted]
    split
    · simp
    · simp only [List.mem_cons, ih]
      tauto

lemma sorted_insertSorted (x : String) :
    ∀ {l : List String}, List.Sorted (· ≤ ·) l →
      List.Sorted (· ≤ ·) (insertSorted x l) := by
  intro l
  induction l with
  | nil => intro _; simp [insertSorted]
  | cons y ys ih =>
    intro h
    rw [List.sorted_cons] at h
    simp only [insertSorted]
    split
    · rename_i hxy
      rw [List.sorted_cons]
      refine ⟨?_, List.sorted_cons.mpr h⟩
      intro b hb
      rcases List.mem_cons.mp hb with hb | hb
      · exact hb ▸ hxy
      · exact le_trans hxy (h.1 b hb)
    · rename_i hxy
      rw [List.sorted_cons]
      refine ⟨?_, ih h.2⟩
      intro b hb
      rcases (mem_insertSorted x b ys).mp hb with hb | hb
      · exact hb ▸ le_of_not_le hxy
      · exact h.1 b hb

lemma sorted_sortStrings (l : List String) :
    List.Sorted (· ≤ ·) (sortStrings l) := by
  induction l with
  | nil => simp [sortStrings]
  | cons x xs ih => exact sorted_insertSorted x ih

lemma mem_sortStrings (a : String) (l : List String) :
    a ∈ sortStrings l ↔ a ∈ l := by
  induction l with
  | nil => simp [sortStrings]
  | cons x xs ih =>
    show a ∈ insertSorted x (sortStrings xs) ↔ _
    rw [mem_insertSorted, ih]
    simp

/-- Claim C4, counterexample: `Data.Xlsx` has a recognized spreadsheet
extension when compared case-insensitively, yet `convert_directory` does not
discover it — only all-lowercase and all-uppercase extensions are globbed. -/
theorem convert_directory_mixed_case_missed :
    discoverExcelFiles ["Data.Xlsx"] = []
      ∧ pyLowerStr (pySuffix "Data.Xlsx") ∈ excelExtensions := by
  constructor
  · rfl
  · decide

/-- Claim C4 (amended): `convert_directory` discovers exactly the entries
directly under the directory whose name ends with a recognized extension in
all-lowercase or all-uppercase form (mixed-case extensions are missed), and
processes them in sorted-path order. -/
theorem discoverExcelFiles_characterization (entries : List String) :
    List.Sorted (· ≤ ·) (discoverExcelFiles entries)
      ∧ ∀ n, n ∈ discoverExcelFiles entries ↔
          (n ∈ entries ∧ recognizedExactCase n = true) := by
  refine ⟨sorted_sortStrings _, ?_⟩
  intro n
  rw [discoverExcelFiles, mem_sortStrings]
  simp only [List.mem_flatten, List.mem_map, recognizedExactCase,
    List.any_eq_true, Bool.or_eq_true]
  constructor
  · rintro ⟨gl, ⟨pat, hpat, rfl⟩, hmem⟩
    rw [List.mem_append, List.mem_filter, List.mem_filter] at hmem
    rcases hmem with ⟨hn, hm⟩ | ⟨hn, hm⟩
    · exact ⟨hn, ⟨pat, hpat, Or.inl hm⟩⟩
    · exact ⟨hn, ⟨pat, hpat, Or.inr hm⟩⟩
  · rintro ⟨hn, pat, hpat, hm | hm⟩
    · exact ⟨_, ⟨pat, hpat, rfl⟩,
        List.mem_append_left _ (List.mem_filter.mpr ⟨hn, hm⟩)⟩
    · exact ⟨_, ⟨pat, hpat, rfl⟩,
        List.mem_append_right _ (List.mem_filter.mpr ⟨hn, hm⟩)⟩

/-- Claim C9: when the directory checks pass, the batch always completes
with one result per discovered file, and a file whose conversion fails is
recorded with an empty output list while every other file keeps its place in
the batch. -/
theorem convert_directory_failure_isolated (env : ConvEnv) (dirPath : String)
    (entries : List String) (odir : Option String)
    (hex : env.existsAt dirPath = true) (hdir : env.isDirAt dirPath = true) :
    ∃ results, convert_directory env dirPath entries odir = Except.ok results
      ∧ results.map Prod.fst
          = (discoverExcelFiles entries).map (fun n => dirPath ++ "/" ++ n)
      ∧ ∀ n ∈ discoverExcelFiles entries, ∀ e,
          convert_excel_to_csv env (dirPath ++ "/" ++ n) odir = Except.error e →
            (dirPath ++ "/" ++ n, ([] : List String)) ∈ results := by
  have hok : convert_directory env dirPath entries odir
      = Except.ok ((discoverExcelFiles entries).map (fun n =>
          match convert_excel_to_csv env (dirPath ++ "/" ++ n) odir with
          | Except.ok csvs => (dirPath ++ "/" ++ n, csvs)
          | Except.error _ => (dirPath ++ "/" ++ n, []))) := by
    unfold convert_directory
    simp [hex, hdir]
  refine ⟨_, hok, ?_, ?_⟩
  · rw [List.map_map]
    apply List.map_congr_left
    intro n _
    cases h : convert_excel_to_csv env (dirPath ++ "/" ++ n) odir <;> simp [h]
  · intro n hn e he
    apply List.mem_map.mpr
    exact ⟨n, hn, by rw [he]⟩

/-- A converter environment in which reading `d/a.xlsx` fails and every
other workbook has a single sheet. -/
def convEnvWitness : ConvEnv :=
  { existsAt := fun _ => true
    isDirAt := fun _ => true
    readExcel := fun p =>
      if p = "d/a.xlsx" then Except.error "boom"
      else Except.ok [("Sheet1", ⟨["c"], []⟩)] }

/-- Witness for claim C9: a two-file batch in which the first file fails. -/
theorem convert_directory_failure_isolated_witness :
    convEnvWitness.existsAt "d" = true ∧ convEnvWitness.isDirAt "d" = true
      ∧ (∃ results,
          convert_directory convEnvWitness "d" ["a.xlsx", "b.xlsx"] none
              = Except.ok results
            ∧ results.map Prod.fst
                = (discoverExcelFiles ["a.xlsx", "b.xlsx"]).map
                    (fun n => "d" ++ "/" ++ n)
            ∧ ∀ n ∈ discoverExcelFiles ["a.xlsx", "b.xlsx"], ∀ e,
                convert_excel_to_csv convEnvWitness ("d" ++ "/" ++ n) none
                    = Except.error e →
                  ("d" ++ "/" ++ n, ([] : List String)) ∈ results) :=
  ⟨rfl, rfl,
   convert_directory_failure_isolated convEnvWitness "d" ["a.xlsx", "b.xlsx"]
     none rfl rfl⟩

/-! ### Statistical analyzer (`analyzer.StatisticalAnalyzer`)

The scipy/pandas numerics are external collaborators, supplied as a
`StatsEnv` of function parameters; p-values and statistics are modelled as
rationals.  A column holds `Option ℚ` values, `none` being a missing cell;
the significance threshold `0.05` is the rational `1/20`. -/

/-- The external statistics library. -/
structure StatsEnv where
  mean : List ℚ → ℚ
  std : List ℚ → ℚ
  f_oneway : List (List ℚ) → ℚ × ℚ
  ttest_ind : List ℚ → List ℚ → ℚ × ℚ
  shapiro : List ℚ → ℚ × ℚ
  pearsonr : List ℚ → List ℚ → ℚ × ℚ
  spearmanr : List ℚ → List ℚ → ℚ × ℚ
  corr : List (String × List (Option ℚ)) → String → List (List ℚ)

/-- `Series.unique()`: distinct values in first-occurrence order. -/
def uniqueFirst {α : Type} [DecidableEq α] : List α → List α
  | [] => []
  | x :: xs => x :: (uniqueFirst xs).filter (fun y => ¬ y = x)

/-- `self.data[self.data[group_column] == group][value_column].dropna()`. -/
def groupValues (rows : List (String × Option ℚ)) (g : String) : List ℚ :=
  (rows.filter (fun r => r.1 = g)).filterMap Prod.snd

/-! #### `t_test` -/

/-- The result dictionary of `t_test`; the two normality entries hold `None`
(`none`) when the group has at most 3 observations. -/
structure TTestResult where
  group1 : String
  group2 : String
  group1_mean : ℚ
  group1_std : ℚ
  group1_n : ℕ
  group2_mean : ℚ
  group2_std : ℚ
  group2_n : ℕ
  t_statistic : ℚ
  p_value : ℚ
  significant : Bool
  normality_group1_p : Option ℚ
  normality_group2_p : Option ℚ

/-- `StatisticalAnalyzer.t_test`: unspecified groups default to the first
and second distinct group values (the second falling back to the first when
only one exists); an empty group column raises an IndexError. -/
def t_test (env : StatsEnv) (rows : List (String × Option ℚ))
    (group1? group2? : Option String) : Except String TTestResult :=
  let groups := uniqueFirst (rows.map Prod.fst)
  match (match group1? with
         | some g => some g
         | none => groups.head?),
        (match group2? with
         | some g => some g
         | none => if 1 < groups.length then groups[1]? else groups.head?) with
  | some g1, some g2 =>
    let data1 := groupValues rows g1
    let data2 := groupValues rows g2
    let tp := env.ttest_ind data1 data2
    Except.ok {
      group1 := g1
      group2 := g2
      group1_mean := env.mean data1
      group1_std := env.std data1
      group1_n := data1.length
      group2_mean := env.mean data2
      group2_std := env.std data2
      group2_n := data2.length
      t_statistic := tp.1
      p_value := tp.2
      significant := decide (tp.2 < 1/20)
      normality_group1_p := if 3 < data1.length then some (env.shapiro data1).2 else none
      normality_group2_p := if 3 < data2.length then some (env.shapiro data2).2 else none }
  | _, _ => Except.error "IndexError: index 0 is out of bounds for axis 0 with size 0"

/-- Claim C8: whenever `t_test` returns a result, the normality p-value for
each of the two groups is present exactly when that group has more than 3
observations after dropping missing values, and absent (`None`) otherwise. -/
theorem t_test_normality_presence (env : StatsEnv)
    (rows : List (String × Option ℚ)) (group1? group2? : Option String)
    (r : TTestResult) (h : t_test env rows group1? group2? = Except.ok r) :
    (r.normality_group1_p.isSome = true
        ↔ 3 < (groupValues rows r.group1).length)
      ∧ (r.normality_group2_p.isSome = true
          ↔ 3 < (groupValues rows r.group2).length) := by
  simp only [t_test] at h
  split at h
  · rename_i g1 g2 e1 e2
    simp only [Except.ok.injEq] at h
    subst h
    constructor
    · by_cases hc : 3 < (groupValues rows g1).length <;> simp [hc]
    · by_cases hc : 3 < (groupValues rows g2).length <;> simp [hc]
  · simp at h

/-- A fixed external statistics library for the concrete witnesses. -/
def statsEnvWitness : StatsEnv :=
  { mean := fun _ => 0
    std := fun _ => 0
    f_oneway := fun _ => (1, 1/100)
    ttest_ind := fun _ _ => (0, 1/100)
    shapiro := fun _ => (0, 1/2)
    pearsonr := fun _ _ => (0, 1/2)
    spearmanr := fun _ _ => (0, 1/2)
    corr := fun _ _ => [] }

/-- A group column with four observations of `a` and one of `b`. -/
def tTestRowsWitness : List (String × Option ℚ) :=
  [("a", some 1), ("a", some 2), ("a", some 3), ("a", some 4), ("b", some 5)]

/-- The value `t_test` returns on `tTestRowsWitness` under
`statsEnvWitness`. -/
def tTestResWitness : TTestResult :=
  { group1 := "a"
    group2 := "b"
    group1_mean := 0
    group1_std := 0
    group1_n := 4
    group2_mean := 0
    group2_std := 0
    group2_n := 1
    t_statistic := 0
    p_value := 1/100
    significant := decide (((1 : ℚ)/100) < 1/20)
    normality_group1_p := some (1/2)
    normality_group2_p := none }

/-- Witness for claim C8: group `a` (4 observations) gets a normality
p-value, group `b` (1 observation) does not. -/
theorem t_test_normality_presence_witness :
    t_test statsEnvWitness tTestRowsWitness none none = Except.ok tTestResWitness
      ∧ ((tTestResWitness.normality_group1_p.isSome = true
            ↔ 3 < (groupValues tTestRowsWitness tTestResWitness.group1).length)
          ∧ (tTestResWitness.normality_group2_p.isSome = true
              ↔ 3 < (groupValues tTestRowsWitness tTestResWitness.group2).length)) :=
  ⟨by rfl,
   t_test_normality_presence statsEnvWitness tTestRowsWitness none none
     tTestResWitness (by rfl)⟩

/-! #### `anova` -/

/-- One entry of the post-hoc pairwise map. -/
structure PairResult where
  t_statistic : ℚ
  p_value : ℚ
  significant_bonferroni : Bool

/-- The result of `anova`; `posthoc_pairwise` and `bonferroni_alpha` are
present only when post-hoc tests ran. -/
structure AnovaResult where
  groups : List String
  group_means : List (String × ℚ)
  group_stds : List (String × ℚ)
  group_ns : List (String × ℕ)
  f_statistic : ℚ
  p_value : ℚ
  significant : Bool
  posthoc_pairwise : Option (List (String × PairResult))
  bonferroni_alpha : Option ℚ

/-- `self.data[group_column].unique()` for the analyzer's table. -/
def anovaGroups (rows : List (String × Option ℚ)) : List String :=
  uniqueFirst (rows.map Prod.fst)

/-- The per-group value lists, missing values dropped independently. -/
def anovaGroupData (rows : List (String × Option ℚ)) : List (List ℚ) :=
  (anovaGroups rows).map (fun g => groupValues rows g)

/-- The iteration order of `for i, group1 in enumerate(groups): for group2 in
groups[i+1:]`. -/
def pairsOf : List String → List (String × String)
  | [] => []
  | g :: rest => rest.map (fun g2 => (g, g2)) ++ pairsOf rest

/-- `StatisticalAnalyzer.anova` from `analyzer.py`. -/
def anova (env : StatsEnv) (rows : List (String × Option ℚ)) (posthoc : Bool) :
    Except String AnovaResult :=
  let groups := anovaGroups rows
  if groups.length < 2 then Except.error "Need at least 2 groups for ANOVA"
  else
    let fp := env.f_oneway (anovaGroupData rows)
    let base : AnovaResult :=
      { groups := groups
        group_means := groups.map (fun g => (g, env.mean (groupValues rows g)))
        group_stds := groups.map (fun g => (g, env.std (groupValues rows g)))
        group_ns := groups.map (fun g => (g, (groupValues rows g).length))
        f_statistic := fp.1
        p_value := fp.2
        significant := decide (fp.2 < 1/20)
        posthoc_pairwise := none
        bonferroni_alpha := none }
    if posthoc = true ∧ fp.2 < 1/20 then
      let n_comparisons : ℚ := ((groups.length : ℚ) * ((groups.length : ℚ) - 1)) / 2
      let alpha := (1/20 : ℚ) / n_comparisons
      let pairwise := (pairsOf groups).map (fun pr =>
        (pr.1 ++ "_vs_" ++ pr.2,
         { t_statistic := (env.ttest_ind (groupValues rows pr.1) (groupValues rows pr.2)).1
           p_value := (env.ttest_ind (groupValues rows pr.1) (groupValues rows pr.2)).2
           significant_bonferroni :=
             decide ((env.ttest_ind (groupValues rows pr.1) (groupValues rows pr.2)).2 < alpha)
           : PairResult }))
      Except.ok { base with
        posthoc_pairwise := some pairwise
        bonferroni_alpha := some alpha }
    else Except.ok base

/-- Claim C5: with exactly 3 distinct groups and post-hoc requested, a
significant omnibus p-value yields a pairwise map of exactly C(3,2)=3
entries, each flagged significant exactly when its p-value is below the
Bonferroni threshold 0.05/3 = 1/60; a non-significant omnibus p-value yields
no pairwise map. -/
theorem anova_posthoc_three_groups (env : StatsEnv)
    (rows : List (String × Option ℚ))
    (h3 : (anovaGroups rows).length = 3) :
    ((env.f_oneway (anovaGroupData rows)).2 < 1/20 →
      ∃ r pw, anova env rows true = Except.ok r
        ∧ r.posthoc_pairwise = some pw
        ∧ r.bonferroni_alpha = some (1/60)
        ∧ pw.length = 3
        ∧ ∀ pr ∈ pw, (pr.2.significant_bonferroni = true ↔ pr.2.p_value < 1/60))
    ∧ (¬ (env.f_oneway (anovaGroupData rows)).2 < 1/20 →
      ∃ r, anova env rows true = Except.ok r ∧ r.posthoc_pairwise = none) := by
  have hlen : ¬ ((anovaGroups rows).length < 2) := by omega
  have halpha : ((1/20 : ℚ) / (((anovaGroups rows).length : ℚ)
      * (((anovaGroups rows).length : ℚ) - 1) / 2)) = 1/60 := by
    rw [h3]
    norm_num
  constructor
  · intro hp
    apply Exists.intro
    apply Exists.intro
    refine ⟨?_, ?_, ?_, ?_, ?_⟩
    · unfold anova
      rw [if_neg hlen, if_pos ⟨rfl, hp⟩]
    · rfl
    · exact congrArg some halpha
    · rw [List.length_map]
      rcases List.length_eq_three.mp h3 with ⟨a, b, c, habc⟩
      rw [habc]
      rfl
    · intro pr hpr
      rcases List.mem_map.mp hpr with ⟨pq, _, hpq⟩
      rw [← hpq]
      show decide ((env.ttest_ind (groupValues rows pq.1) (groupValues rows pq.2)).2
          < (1/20 : ℚ) / (((anovaGroups rows).length : ℚ)
              * (((anovaGroups rows).length : ℚ) - 1) / 2)) = true
        ↔ (env.ttest_ind (groupValues rows pq.1) (groupValues rows pq.2)).2 < 1/60
      rw [halpha]
      exact decide_eq_true_iff
  · intro hp
    apply Exists.intro
    refine ⟨?_, ?_⟩
    · unfold anova
      rw [if_neg hlen, if_neg (fun hand => hp hand.2)]
    · rfl

/-- Three single-observation groups. -/
def anovaRowsWitness : List (String × Option ℚ) :=
  [("a", some 1), ("b", some 2), ("c", some 3)]

/-- Witness for claim C5 on a table with groups `a`, `b`, `c`. -/
theorem anova_posthoc_three_groups_witness :
    (anovaGroups anovaRowsWitness).length = 3
      ∧ (((statsEnvWitness.f_oneway (anovaGroupData anovaRowsWitness)).2 < 1/20 →
          ∃ r pw, anova statsEnvWitness anovaRowsWitness true = Except.ok r
            ∧ r.posthoc_pairwise = some pw
            ∧ r.bonferroni_alpha = some (1/60)
            ∧ pw.length = 3
            ∧ ∀ pr ∈ pw,
                (pr.2.significant_bonferroni = true ↔ pr.2.p_value < 1/60))
        ∧ (¬ (statsEnvWitness.f_oneway (anovaGroupData anovaRowsWitness)).2 < 1/20 →
          ∃ r, anova statsEnvWitness anovaRowsWitness true = Except.ok r
            ∧ r.posthoc_pairwise = none)) :=
  ⟨by decide, anova_posthoc_three_groups statsEnvWitness anovaRowsWitness (by decide)⟩

/-! #### `correlation_analysis` -/

/-- The values of column `k` of the analyzer's numeric subset. -/
def colVals (cols : List (String × List (Option ℚ))) (k : ℕ) : List (Option ℚ) :=
  (cols.getD k ("", [])).2

/-- `subset[[col1, col2]].dropna()`: the row-aligned pairs in which both
cells are present. -/
def jointValid (xs ys : List (Option ℚ)) : List (ℚ × ℚ) :=
  (xs.zip ys).filterMap (fun p =>
    match p with
    | (some a, some b) => some (a, b)
    | _ => none)

/-- One cell of the p-value matrix: the diagonal keeps its zero initializer;
an off-diagonal pair gets a two-sided p-value when more than 2 joint
observations remain, `NaN` (modelled `none`) otherwise. -/
def pairPValue (env : StatsEnv) (method : String)
    (cols : List (String × List (Option ℚ))) (i j : ℕ) : Option ℚ :=
  if i = j then some 0
  else
    let vd := jointValid (colVals cols i) (colVals cols j)
    if 2 < vd.length then
      some ((if method = "pearson"
             then env.pearsonr (vd.map Prod.fst) (vd.map Prod.snd)
             else env.spearmanr (vd.map Prod.fst) (vd.map Prod.snd)).2)
    else none

/-- The full p-value matrix of `correlation_analysis`. -/
def correlationPValues (env : StatsEnv) (method : String)
    (cols : List (String × List (Option ℚ))) : List (List (Option ℚ)) :=
  (List.range cols.length).map (fun i =>
    (List.range cols.length).map (fun j => pairPValue env method cols i j))

/-- The result of `correlation_analysis`. -/
structure CorrResult where
  method : String
  correlation_matrix : List (List ℚ)
  p_values : List (List (Option ℚ))
  plot_path : Option String

/-- `StatisticalAnalyzer.correlation_analysis` from `analyzer.py`: at least
two numeric columns, a known method, the library correlation matrix, the
pairwise p-value matrix, and an optional heatmap path. -/
def correlation_analysis (env : StatsEnv)
    (cols : List (String × List (Option ℚ))) (method : String)
    (save_plot : Bool) (output_dir : String) : Except String CorrResult :=
  if cols.length < 2 then
    Except.error "Need at least 2 numeric columns for correlation analysis"
  else if ¬ (method = "pearson" ∨ method = "spearman") then
    Except.error ("Unknown correlation method: " ++ method)
  else
    Except.ok
      { method := method
        correlation_matrix := env.corr cols method
        p_values := correlationPValues env method cols
        plot_path := if save_plot
          then some (output_dir ++ "/plots/correlation_" ++ method ++ ".png")
          else none }

lemma getElem?_range_map {β : Type} (g : ℕ → β) (n i : ℕ) (h : i < n) :
    ((List.range n).map g)[i]? = some (g i) := by
  rw [List.getElem?_map, List.getElem?_range h]
  rfl

/-- Claim C6: for an off-diagonal column pair with exactly 2 valid joint
observations, the p-value entry is NaN (`none`) while the correlation matrix
is still the one computed by the library; diagonal p-value entries stay
zero. -/
theorem correlation_pvalue_two_obs_nan (env : StatsEnv)
    (cols : List (String × List (Option ℚ))) (method : String)
    (save_plot : Bool) (output_dir : String) (i j : ℕ)
    (hm : method = "pearson" ∨ method = "spearman")
    (hlen : 2 ≤ cols.length) (hi : i < cols.length) (hj : j < cols.length)
    (hij : i ≠ j)
    (h2 : (jointValid (colVals cols i) (colVals cols j)).length = 2) :
    ∃ r, correlation_analysis env cols method save_plot output_dir = Except.ok r
      ∧ r.correlation_matrix = env.corr cols method
      ∧ (r.p_values[i]?.bind (fun row => row[j]?)) = some none
      ∧ (r.p_values[i]?.bind (fun row => row[i]?)) = some (some 0) := by
  apply Exists.intro
  refine ⟨?_, ?_, ?_, ?_⟩
  · unfold correlation_analysis
    rw [if_neg (by omega), if_neg (not_not_intro hm)]
  · rfl
  · show ((correlationPValues env method cols)[i]?.bind (fun row => row[j]?)) = some none
    unfold correlationPValues
    rw [getElem?_range_map _ _ _ hi]
    simp only [Option.some_bind]
    rw [getElem?_range_map _ _ _ hj]
    unfold pairPValue
    rw [if_neg hij]
    simp only []
    rw [if_neg (by omega)]
  · show ((correlationPValues env method cols)[i]?.bind (fun row => row[i]?)) = some (some 0)
    unfold correlationPValues
    rw [getElem?_range_map _ _ _ hi]
    simp only [Option.some_bind]
    rw [getElem?_range_map _ _ _ hi]
    unfold pairPValue
    rw [if_pos rfl]

/-- Two numeric columns with exactly two complete joint rows (the third row
of `y` is missing). -/
def corrColsWitness : List (String × List (Option ℚ)) :=
  [("x", [some 1, some 2, some 3]), ("y", [some 1, some 2, none])]

/-- Witness for claim C6 on the column pair `(x, y)` with 2 joint
observations. -/
theorem correlation_pvalue_two_obs_nan_witness :
    (("pearson" : String) = "pearson" ∨ ("pearson" : String) = "spearman")
      ∧ 2 ≤ corrColsWitness.length
      ∧ (0 : ℕ) < corrColsWitness.length
      ∧ (1 : ℕ) < corrColsWitness.length
      ∧ (0 : ℕ) ≠ 1
      ∧ (jointValid (colVals corrColsWitness 0) (colVals corrColsWitness 1)).length = 2
      ∧ (∃ r, correlation_analysis statsEnvWitness corrColsWitness "pearson" false "outputs/analyses"
            = Except.ok r
          ∧ r.correlation_matrix = statsEnvWitness.corr corrColsWitness "pearson"
          ∧ (r.p_values[0]?.bind (fun row => row[1]?)) = some none
          ∧ (r.p_values[0]?.bind (fun row => row[0]?)) = some (some 0)) :=
  ⟨Or.inl rfl, by decide, by decide, by decide, by decide, by decide,
   correlation_pvalue_two_obs_nan statsEnvWitness corrColsWitness "pearson"
     false "outputs/analyses" 0 1 (Or.inl rfl) (by decide) (by decide) (by decide)
     (by decide) (by decide)⟩

end ExcelToGraph
